import Mathlib

/-!
Shallow embedding of the verify-conformance Prow plugin
(internal/plugin/plugin.go): the managed-label classifier, the label,
comment and status reconcilers, and the per-PR handling state machine.
GitHub client calls are modelled through an oracle `World` together with
an explicit `Effect` trace; the filesystem and the rule-suite
collaborators (internal/suite, declared external in the design document)
are oracle inputs to `handle`.
-/

namespace VerifyConformance

/-- Character-list version of the prefix test used by the Go standard
library string helpers that plugin.go calls. -/
def listStartsWith : List Char → List Char → Bool
  | [], _ => true
  | _ :: _, [] => false
  | a :: as, b :: bs => a == b && listStartsWith as bs

/-- Substring scan over character lists: true when `pat` occurs
contiguously in the second argument. -/
def listHasSub (pat : List Char) : List Char → Bool
  | [] => listStartsWith pat []
  | c :: rest => listStartsWith pat (c :: rest) || listHasSub pat rest

/-- Go `strings.Contains(s, pat)`. -/
def strContains (s pat : String) : Bool := listHasSub pat.data s.data

/-- Go `strings.ReplaceAll(t, "%v", repl)` specialised to the fixed
pattern `%v` used by the managed label templates. -/
def replacePercentV (repl : List Char) : List Char → List Char
  | [] => []
  | '%' :: 'v' :: rest => repl ++ replacePercentV repl rest
  | c :: rest => c :: replacePercentV repl rest

/-- Go `fmt.Sprintf(t, v)` for a template holding a single `%v` verb:
the first `%v` occurrence is replaced by the argument. -/
def replaceFirstPercentV (repl : List Char) : List Char → List Char
  | [] => []
  | '%' :: 'v' :: rest => repl ++ rest
  | c :: rest => c :: replaceFirstPercentV repl rest

/-- `strings.ReplaceAll(ml, "%v", "")` as used by the classifiers. -/
def stripTemplate (t : String) : String := ⟨replacePercentV [] t.data⟩

/-- `fmt.Sprintf(ml, v)` as used by the classifiers. -/
def sprintfV (t v : String) : String := ⟨replaceFirstPercentV v.data t.data⟩

/-- Go `strings.ToLower` (ASCII case mapping). -/
def lowerStr (s : String) : String := ⟨s.data.map Char.toLower⟩

/-- Go `strings.EqualFold` (ASCII case folding). -/
def eqFold (a b : String) : Bool := lowerStr a == lowerStr b

/-- Go `strings.ToUpper(s[:1]) + s[1:]`, the sentence-casing applied to
the release-validator error text; total on the empty string (the Go code
never reaches it with an empty error text). -/
def capitalizeFirst (s : String) : String :=
  match s.data with
  | [] => ""
  | c :: rest => ⟨Char.toUpper c :: rest⟩

/-- The fixed managed label names (var managedPRLabels). -/
def managedPRLabels : List String :=
  ["conformance-product-submission",
   "not-conformance-product-submission",
   "not-verifiable",
   "release-documents-checked",
   "required-tests-missing",
   "evidence-missing",
   "unable-to-process"]

/-- Version-templated managed label names. -/
def managedPRLabelTemplatesWithVersion : List String :=
  ["release-%v", "no-failed-tests-%v", "tests-verified-%v"]

/-- Filename-templated managed label names. -/
def managedPRLabelTemplatesWithFileName : List String :=
  ["missing-file-%v"]

/-- plugin.go labelIsManaged: membership in the fixed managed set. -/
def labelIsManaged (input : String) : Bool :=
  managedPRLabels.contains input

/-- plugin.go labelIsVersionLabel: for each version template, the label
either contains the template with the verb stripped, or equals the
template rendered at the given version. -/
def labelIsVersionLabel (label version : String) : Bool :=
  managedPRLabelTemplatesWithVersion.any fun ml =>
    strContains label (stripTemplate ml) || sprintfV ml version == label

/-- plugin.go labelIsFileLabel: for each filename template, the label
either contains the template with the verb stripped, or equals the
template rendered at one of the missing files. -/
def labelIsFileLabel (label : String) (missingFiles : List String) : Bool :=
  managedPRLabelTemplatesWithFileName.any fun ml =>
    strContains label (stripTemplate ml) ||
      missingFiles.any fun f => sprintfV ml f == label

theorem listStartsWith_self_append (p q : List Char) :
    listStartsWith p (p ++ q) = true := by
  induction p with
  | nil => rfl
  | cons a as ih => simp [listStartsWith, ih]

theorem listHasSub_of_startsWith {p s : List Char}
    (h : listStartsWith p s = true) : listHasSub p s = true := by
  cases s with
  | nil => simpa [listHasSub] using h
  | cons c rest => simp [listHasSub, h]

theorem strContains_append_left (pre suf : String) :
    strContains (pre ++ suf) pre = true := by
  have hdata : (pre ++ suf).data = pre.data ++ suf.data := by
    cases pre; cases suf; rfl
  unfold strContains
  rw [hdata]
  exact listHasSub_of_startsWith (listStartsWith_self_append _ _)

theorem sprintfV_missing_file (f : String) :
    sprintfV "missing-file-%v" f = "missing-file-" ++ f := by
  have h1 : replaceFirstPercentV f.data "missing-file-%v".data =
      "missing-file-".data ++ (f.data ++ []) := rfl
  have h2 : ("missing-file-" ++ f).data = "missing-file-".data ++ f.data := by
    cases f; rfl
  unfold sprintfV
  rw [h1, List.append_nil, ← h2]

/-- Every label classified as a file label contains the stripped
filename-template text. -/
theorem labelIsFileLabel_contains {label : String} {mf : List String}
    (h : labelIsFileLabel label mf = true) :
    strContains label "missing-file-" = true := by
  unfold labelIsFileLabel managedPRLabelTemplatesWithFileName at h
  simp only [List.any_cons, List.any_nil, Bool.or_false, Bool.or_eq_true,
    List.any_eq_true, beq_iff_eq] at h
  rcases h with h | ⟨f, _, hf⟩
  · exact h
  · rw [← hf, sprintfV_missing_file]
    exact strContains_append_left _ _

/-- C3, counterexample: the fixed managed label release-documents-checked
is also classified as a version label (it contains the stripped template
release-), and missing-file-release-notes is classified both as a version
label and as a file label. -/
theorem c3_counterexample :
    labelIsManaged "release-documents-checked" = true ∧
    labelIsVersionLabel "release-documents-checked" "v1.30" = true ∧
    labelIsVersionLabel "missing-file-release-notes" "v1.30" = true ∧
    labelIsFileLabel "missing-file-release-notes" [] = true := by
  decide

/-- C3, amended: of the three managed-label categories only the fixed
category (labelIsManaged) and the filename-templated category
(labelIsFileLabel) are mutually exclusive: no label string, for any
missing-file list, makes both return true. -/
theorem c3_managed_file_exclusive (label : String) (mf : List String)
    (h : labelIsManaged label = true) :
    labelIsFileLabel label mf = false := by
  cases hF : labelIsFileLabel label mf
  · rfl
  · exfalso
    have hsub := labelIsFileLabel_contains hF
    have hmem : label ∈ managedPRLabels := by
      simpa [labelIsManaged] using h
    simp only [managedPRLabels, List.mem_cons, List.not_mem_nil, or_false] at hmem
    rcases hmem with h1 | h1 | h1 | h1 | h1 | h1 | h1 <;>
      (subst h1; revert hsub; decide)

/-- C3, amended, witness at a concrete managed label. -/
theorem c3_managed_file_exclusive_witness :
    labelIsManaged "unable-to-process" = true ∧
    labelIsFileLabel "unable-to-process" ["README.md"] = false :=
  ⟨by decide, c3_managed_file_exclusive "unable-to-process" ["README.md"] (by decide)⟩

/-- C7: a label containing any stripped version-template text
(release-, no-failed-tests-, tests-verified-) is classified as a version
label whatever the current version is. -/
theorem c7_version_family (label version : String)
    (h : strContains label "release-" = true ∨
         strContains label "no-failed-tests-" = true ∨
         strContains label "tests-verified-" = true) :
    labelIsVersionLabel label version = true := by
  unfold labelIsVersionLabel managedPRLabelTemplatesWithVersion
  simp only [List.any_cons, List.any_nil, Bool.or_false, Bool.or_eq_true]
  rcases h with h | h | h
  · exact Or.inl (Or.inl h)
  · exact Or.inr (Or.inl (Or.inl h))
  · exact Or.inr (Or.inr (Or.inl h))

/-- C7, witness: a stale version label is recognized under a newer
current version. -/
theorem c7_version_family_witness :
    strContains "no-failed-tests-v1.27" "no-failed-tests-" = true ∧
    labelIsVersionLabel "no-failed-tests-v1.27" "v1.28" = true :=
  ⟨by decide, c7_version_family "no-failed-tests-v1.27" "v1.28"
    (Or.inr (Or.inl (by decide)))⟩

/-- A GitHub issue comment as observed by updateComments (author login
and body). -/
structure IssueCommentM where
  user : String
  body : String
  deriving DecidableEq

/-- A status context on a commit (context name and state). -/
structure StatusContextM where
  context : String
  state : String
  deriving DecidableEq

/-- A commit of the PR, with its oid and status contexts. -/
structure CommitM where
  oid : String
  contexts : List StatusContextM
  deriving DecidableEq

/-- The fields of the GraphQL PullRequest read by the reconcilers and the
state machine: title, head ref oid and the commit list (identity fields
such as org, repo and number only feed log and error texts and are
omitted). -/
structure PRM where
  title : String
  headRefOID : String
  commits : List CommitM
  deriving DecidableEq

/-- The combined status returned by GetCombinedStatus. -/
structure CombinedStatusM where
  sha : String
  state : String
  deriving DecidableEq

/-- The suite state read and written by updateLabels: prSuite.PR.Labels,
prSuite.KubernetesReleaseVersion and prSuite.MissingFiles. -/
structure PRSuiteState where
  prLabels : List String
  version : String
  missingFiles : List String
  deriving DecidableEq

/-- A GitHub mutation issued through the client. -/
inductive Effect where
  | addLabel (label : String)
  | removeLabel (label : String)
  | deleteComment (c : IssueCommentM)
  | createComment (body : String)
  | createStatus (context state description : String)
  deriving DecidableEq

/-- Oracle for the GitHub client: per-call success flags and the data
returned by the read-only calls. -/
structure World where
  addLabelOk : String → Bool
  removeLabelOk : String → Bool
  comments : List IssueCommentM
  listCommentsOk : Bool
  botCheckOk : Bool
  isBot : String → Bool
  deleteOk : Bool
  createCommentOk : Bool
  combinedStatus : CombinedStatusM
  getCombinedOk : Bool
  createStatusOk : Bool

/-- A world in which every client call succeeds, no comments exist and
the combined status is blank. -/
def wAllOk : World :=
  ⟨fun _ => true, fun _ => true, [], true, true, fun _ => false, true, true,
   ⟨"", ""⟩, true, true⟩

/-- All client calls of `w` succeed. -/
def World.allOk (w : World) : Prop :=
  (∀ l, w.addLabelOk l = true) ∧ (∀ l, w.removeLabelOk l = true) ∧
  w.listCommentsOk = true ∧ w.botCheckOk = true ∧ w.deleteOk = true ∧
  w.createCommentOk = true ∧ w.getCombinedOk = true ∧ w.createStatusOk = true

theorem wAllOk_allOk : wAllOk.allOk :=
  ⟨fun _ => rfl, fun _ => rfl, rfl, rfl, rfl, rfl, rfl, rfl⟩

/-- plugin.go removeSliceOfStringsFromStringSlice: keep the items of the
original slice that do not occur in the removal slice. -/
def removeSliceOfStringsFromStringSlice
    (originalSlice removeSlice : List String) : List String :=
  originalSlice.filter fun oItem => !(removeSlice.contains oItem)

/-- Accumulated outcome of one of the two updateLabels loops: the loop
accumulator, the client calls issued, and the error if one occurred. -/
structure LoopOut where
  acc : List String
  effects : List Effect
  err : Option String
  deriving DecidableEq

/-- The first updateLabels loop (labeled `labels:` in plugin.go): walk the
desired labels, skip those classified unmanaged and those already present
in the original prSuite.PR.Labels (`cur`), and issue AddLabel for the
rest, stopping at the first failed call. -/
def addLoop (w : World) (cur : List String) (version : String)
    (mf : List String) :
    List String → List String → List Effect → LoopOut
  | [], acc, effs => ⟨acc, effs, none⟩
  | l :: rest, acc, effs =>
    if !(labelIsVersionLabel l version) && !(labelIsFileLabel l mf) &&
        !(labelIsManaged l) then
      addLoop w cur version mf rest acc effs
    else if cur.contains l then
      addLoop w cur version mf rest acc effs
    else if w.addLabelOk l then
      addLoop w cur version mf rest (acc ++ [l]) (effs ++ [.addLabel l])
    else
      ⟨acc, effs ++ [.addLabel l], some ("failed to add label " ++ l)⟩

/-- The second updateLabels loop (labeled `prLabels:` in plugin.go): walk
the post-append label list `all`, skip unmanaged labels and labels in the
desired set, and issue RemoveLabel for the rest.  Mirroring line 404 of
plugin.go, each removal OVERWRITES the accumulator with
`append(prSuite.PR.Labels, prl)`, that is with `all ++ [prl]`, rather
than appending `prl` to the previous accumulator. -/
def removeLoop (w : World) (desired all : List String) (version : String)
    (mf : List String) :
    List String → List String → List Effect → LoopOut
  | [], acc, effs => ⟨acc, effs, none⟩
  | prl :: rest, acc, effs =>
    if !(labelIsVersionLabel prl version) && !(labelIsFileLabel prl mf) &&
        !(labelIsManaged prl) then
      removeLoop w desired all version mf rest acc effs
    else if desired.contains prl then
      removeLoop w desired all version mf rest acc effs
    else if w.removeLabelOk prl then
      removeLoop w desired all version mf rest (all ++ [prl])
        (effs ++ [.removeLabel prl])
    else
      ⟨acc, effs ++ [.removeLabel prl],
       some ("failed to add remove " ++ prl)⟩

/-- Result of updateLabels: the two returned slices, the returned error,
the suite state after the call and the client calls issued. -/
structure UpdateLabelsResult where
  newLabels : List String
  removedLabels : List String
  err : Option String
  state : PRSuiteState
  effects : List Effect
  deriving DecidableEq

/-- plugin.go updateLabels: run the add loop against the original
in-memory labels, append the confirmed adds, run the remove loop over the
extended list, and filter the accumulated removal slice out of the
in-memory list.  Both error returns yield two empty slices. -/
def updateLabels (w : World) (s : PRSuiteState) (labels : List String) :
    UpdateLabelsResult :=
  match addLoop w s.prLabels s.version s.missingFiles labels [] [] with
  | ⟨_, aeffs, some e⟩ => ⟨[], [], some e, s, aeffs⟩
  | ⟨newLabels, aeffs, none⟩ =>
    let prLabels2 := s.prLabels ++ newLabels
    match removeLoop w labels prLabels2 s.version s.missingFiles
        prLabels2 [] [] with
    | ⟨_, reffs, some e⟩ =>
      ⟨[], [], some e, { s with prLabels := prLabels2 }, aeffs ++ reffs⟩
    | ⟨removedLabels, reffs, none⟩ =>
      ⟨newLabels, removedLabels, none,
       { s with prLabels :=
           removeSliceOfStringsFromStringSlice prLabels2 removedLabels },
       aeffs ++ reffs⟩

/-- The label-set scenario of the design document at section 8: current
labels release-v1.28 and unrelated-label, desired label release-v1.29. -/
def sC1 : PRSuiteState := ⟨["release-v1.28", "unrelated-label"], "v1.29", []⟩

/-- C1, failing evaluation: on the section-8 scenario updateLabels
returns without error, the client calls are exactly AddLabel
release-v1.29 and RemoveLabel release-v1.28, yet the in-memory label list
ends EMPTY (the unmanaged unrelated-label is dropped) and the returned
removedLabels slice lists every label instead of the removed one. -/
theorem c1_failing_eval :
    (updateLabels wAllOk sC1 ["release-v1.29"]).err = none ∧
    (updateLabels wAllOk sC1 ["release-v1.29"]).effects =
      [Effect.addLabel "release-v1.29", Effect.removeLabel "release-v1.28"] ∧
    (updateLabels wAllOk sC1 ["release-v1.29"]).state.prLabels = [] ∧
    (updateLabels wAllOk sC1 ["release-v1.29"]).removedLabels =
      ["release-v1.28", "unrelated-label", "release-v1.29", "release-v1.28"] := by
  decide

/-- C10: whenever updateLabels returns an error both returned slices are
empty, and when the failure happened in the add loop the in-memory label
list is untouched. -/
theorem c10_error_returns (w : World) (s : PRSuiteState) (labels : List String)
    (h : (updateLabels w s labels).err ≠ none) :
    (updateLabels w s labels).newLabels = [] ∧
    (updateLabels w s labels).removedLabels = [] ∧
    ((addLoop w s.prLabels s.version s.missingFiles labels [] []).err ≠ none →
      (updateLabels w s labels).state = s) := by
  rcases ha : addLoop w s.prLabels s.version s.missingFiles labels [] [] with
    ⟨acc, aeffs, aerr⟩
  cases aerr with
  | some e => simp [updateLabels, ha]
  | none =>
    rcases hr : removeLoop w labels (s.prLabels ++ acc) s.version
        s.missingFiles (s.prLabels ++ acc) [] [] with ⟨racc, reffs, rerr⟩
    cases rerr with
    | some e => simp [updateLabels, ha, hr]
    | none =>
      exfalso
      apply h
      simp [updateLabels, ha, hr]

/-- An oracle world in which every AddLabel call fails. -/
def wAddFail : World := { wAllOk with addLabelOk := fun _ => false }

/-- C10, witness: a failing AddLabel call yields empty slices and leaves
the in-memory labels untouched. -/
theorem c10_error_returns_witness :
    (updateLabels wAddFail ⟨[], "v1.28", []⟩ ["unable-to-process"]).newLabels = [] ∧
    (updateLabels wAddFail ⟨[], "v1.28", []⟩ ["unable-to-process"]).removedLabels = [] ∧
    ((addLoop wAddFail [] "v1.28" [] ["unable-to-process"] [] []).err ≠ none →
      (updateLabels wAddFail ⟨[], "v1.28", []⟩ ["unable-to-process"]).state =
        ⟨[], "v1.28", []⟩) :=
  c10_error_returns wAddFail ⟨[], "v1.28", []⟩ ["unable-to-process"] (by decide)

/-- The bot-comment filter of updateComments: comments authored by the
bot identity and with a non-empty body, in list order. -/
def botCommentsOf (w : World) : List IssueCommentM :=
  w.comments.filter fun c => w.isBot c.user && !(c.body == "")

/-- plugin.go updateComments: list the comments, filter to non-empty
bot-authored ones, stop when the latest such comment already equals the
new body, otherwise prune all but the latest through DeleteStaleComments
(which deletes the comments of the given list that satisfy the staleness
predicate, here bot authorship) and create the new comment. -/
def updateComments (w : World) (comment : String) :
    List Effect × Option String :=
  if !w.listCommentsOk then ([], some "unable to list comments")
  else if !w.botCheckOk then ([], some "unable to get bot name")
  else
    let botComments := botCommentsOf w
    let lastMatches :=
      match botComments.getLast? with
      | some lc => lc.body == comment
      | none => false
    if lastMatches then ([], none)
    else
      let botCommentsToPrune := botComments.dropLast
      let deleteEffects :=
        (botCommentsToPrune.filter fun c => w.isBot c.user).map
          Effect.deleteComment
      if !w.deleteOk then (deleteEffects, some "unable to prune stale comments")
      else
        (deleteEffects ++ [Effect.createComment comment],
         if w.createCommentOk then none else some "failed to create comment")

theorem mem_botCommentsOf {w : World} {c : IssueCommentM}
    (h : c ∈ botCommentsOf w) : w.isBot c.user = true ∧ c.body ≠ "" := by
  unfold botCommentsOf at h
  rw [List.mem_filter] at h
  rcases h with ⟨-, h⟩
  rw [Bool.and_eq_true, Bool.not_eq_true', beq_eq_false_iff_ne] at h
  exact h

theorem prune_filter_eq (w : World) :
    ((botCommentsOf w).dropLast.filter fun c => w.isBot c.user) =
      (botCommentsOf w).dropLast :=
  List.filter_eq_self.mpr fun c hc =>
    (mem_botCommentsOf ((List.dropLast_sublist _).subset hc)).1

/-- An oracle world holding one empty-bodied and one non-empty bot
comment. -/
def wC4 : World :=
  { wAllOk with
    comments := [⟨"k8s-ci-robot", ""⟩, ⟨"k8s-ci-robot", "old result"⟩],
    isBot := fun u => u == "k8s-ci-robot" }

/-- C4, counterexample: both listed comments are bot-authored and the new
body differs from the latest bot comment body, yet updateComments only
creates the new comment and deletes nothing - in particular the older
bot-authored comment with the empty body is not deleted. -/
theorem c4_counterexample :
    (wC4.comments.filter fun c => wC4.isBot c.user) =
      [⟨"k8s-ci-robot", ""⟩, ⟨"k8s-ci-robot", "old result"⟩] ∧
    (updateComments wC4 "new result").1 = [Effect.createComment "new result"] ∧
    Effect.deleteComment ⟨"k8s-ci-robot", ""⟩ ∉
      (updateComments wC4 "new result").1 := by
  decide

/-- C4, amended: when listing and bot lookup succeed, if the latest
non-empty bot-authored comment equals the new body nothing is created or
deleted; otherwise (deletion and creation succeeding) exactly the
non-empty bot-authored comments except the latest such are deleted and
exactly one comment with the new body is created; and a comment not
authored by the bot is never deleted. -/
theorem updateComments_not_match {w : World} {comment : String}
    (h1 : w.listCommentsOk = true) (h2 : w.botCheckOk = true)
    (h3 : w.deleteOk = true) (h4 : w.createCommentOk = true)
    (hmatch :
      (match (botCommentsOf w).getLast? with
        | some lc => lc.body == comment
        | none => false) = false) :
    updateComments w comment =
      ((botCommentsOf w).dropLast.map Effect.deleteComment ++
         [Effect.createComment comment], none) := by
  simp [updateComments, h1, h2, h3, h4, hmatch, prune_filter_eq]

theorem c4_comment_reconcile (w : World) (comment : String)
    (h1 : w.listCommentsOk = true) (h2 : w.botCheckOk = true)
    (h3 : w.deleteOk = true) (h4 : w.createCommentOk = true) :
    ((∃ lc, (botCommentsOf w).getLast? = some lc ∧ lc.body = comment) →
       updateComments w comment = ([], none)) ∧
    ((∀ lc, (botCommentsOf w).getLast? = some lc → lc.body ≠ comment) →
       updateComments w comment =
         ((botCommentsOf w).dropLast.map Effect.deleteComment ++
            [Effect.createComment comment], none)) ∧
    (∀ c, w.isBot c.user = false →
       Effect.deleteComment c ∉ (updateComments w comment).1) := by
  refine ⟨?_, ?_, ?_⟩
  · rintro ⟨lc, hlast, hbody⟩
    simp [updateComments, h1, h2, hlast, hbody]
  · intro hne
    refine updateComments_not_match h1 h2 h3 h4 ?_
    cases hl : (botCommentsOf w).getLast? with
    | none => rfl
    | some lc => simpa using hne lc hl
  · intro c hbot
    have hnotdel :
        Effect.deleteComment c ∉
          ((botCommentsOf w).dropLast.map Effect.deleteComment ++
            [Effect.createComment comment]) := by
      intro hmem
      rcases List.mem_append.mp hmem with hdel | hcreate
      · rcases List.mem_map.mp hdel with ⟨c2, hc2, heq⟩
        have hceq : c2 = c := by injection heq
        subst hceq
        have := (mem_botCommentsOf ((List.dropLast_sublist _).subset hc2)).1
        rw [this] at hbot
        exact Bool.true_eq_false.mp hbot
      · simp at hcreate
    cases hl : (botCommentsOf w).getLast? with
    | none =>
      rw [updateComments_not_match h1 h2 h3 h4 (by rw [hl])]
      exact hnotdel
    | some lc =>
      by_cases hbody : lc.body = comment
      · have : updateComments w comment = ([], none) := by
          simp [updateComments, h1, h2, hl, hbody]
        rw [this]
        simp
      · rw [updateComments_not_match h1 h2 h3 h4 (by rw [hl]; simpa using hbody)]
        exact hnotdel

/-- C4, amended, witness: with no existing comments, exactly one create
call is issued. -/
theorem c4_comment_reconcile_witness :
    updateComments wAllOk "hello" = ([Effect.createComment "hello"], none) :=
  (c4_comment_reconcile wAllOk "hello" rfl rfl rfl rfl).2.1
    (by intro lc h; simp [botCommentsOf, wAllOk] at h)

/-- The inner loop of updateStatus over one commit: the state of the
first status context whose name folds to verify-conformance. -/
def firstVCState : List StatusContextM → Option String
  | [] => none
  | x :: rest =>
    if eqFold x.context "verify-conformance" then some x.state
    else firstVCState rest

/-- The commitLoop of updateStatus: scan the commits whose oid equals the
head ref oid and return the state recorded by the first
verify-conformance context found, breaking out of both loops there. -/
def findVCStatus (head : String) : List CommitM → Option String
  | [] => none
  | c :: rest =>
    if c.oid = head then
      match firstVCState c.contexts with
      | some st => some st
      | none => findVCStatus head rest
    else findVCStatus head rest

/-- plugin.go updateStatus: short-circuit when the head commit already
records a successful verify-conformance context; otherwise pick the
description for the desired state, fetch the combined status, skip when
it already matches, and create the status otherwise. -/
def updateStatus (w : World) (pr : PRM) (state : String) :
    List Effect × Option String :=
  let currentLatestHasCurrentStatus :=
    match findVCStatus pr.headRefOID pr.commits with
    | some st => eqFold st "SUCCESS"
    | none => false
  if currentLatestHasCurrentStatus then ([], none)
  else
    let description :=
      if state = "success" then "All checks are passing"
      else if state = "failure" then
        "Please check failing requirements and update accordingly"
      else "Internal error"
    if !w.getCombinedOk then ([], some "failed to get combined status")
    else if w.combinedStatus.sha == pr.headRefOID &&
        w.combinedStatus.state == state then ([], none)
    else
      ([Effect.createStatus "verify-conformance" state description],
       if w.createStatusOk then none else some "failed to create status")

theorem firstVCState_sound {xs : List StatusContextM} {st : String}
    (h : firstVCState xs = some st) :
    ∃ y ∈ xs, eqFold y.context "verify-conformance" = true ∧ y.state = st := by
  induction xs with
  | nil => exact absurd h (by simp [firstVCState])
  | cons a rest ih =>
    by_cases ha : eqFold a.context "verify-conformance" = true
    · rw [firstVCState, if_pos ha] at h
      exact ⟨a, List.mem_cons_self a rest, ha, Option.some_inj.mp h⟩
    · rw [firstVCState, if_neg ha] at h
      obtain ⟨y, hy, hn, hst⟩ := ih h
      exact ⟨y, List.mem_cons_of_mem a hy, hn, hst⟩

theorem firstVCState_found {xs : List StatusContextM} (x : StatusContextM)
    (hx : x ∈ xs) (hn : eqFold x.context "verify-conformance" = true) :
    ∃ st, firstVCState xs = some st := by
  induction xs with
  | nil => exact absurd hx (List.not_mem_nil x)
  | cons a rest ih =>
    by_cases ha : eqFold a.context "verify-conformance" = true
    · exact ⟨a.state, by rw [firstVCState, if_pos ha]⟩
    · rcases List.mem_cons.mp hx with heq | hmem
      · exact absurd (heq ▸ hn) ha
      · obtain ⟨st, hst⟩ := ih hmem
        exact ⟨st, by rw [firstVCState, if_neg ha]; exact hst⟩

theorem findVCStatus_found {cs : List CommitM} {head : String} (c : CommitM)
    (hc : c ∈ cs) (hoid : c.oid = head) (x : StatusContextM)
    (hx : x ∈ c.contexts) (hn : eqFold x.context "verify-conformance" = true) :
    ∃ st, findVCStatus head cs = some st ∧
      ∃ c2 ∈ cs, c2.oid = head ∧
        ∃ y ∈ c2.contexts, eqFold y.context "verify-conformance" = true ∧
          y.state = st := by
  induction cs with
  | nil => exact absurd hc (List.not_mem_nil c)
  | cons a rest ih =>
    by_cases hoa : a.oid = head
    · cases hfa : firstVCState a.contexts with
      | some st =>
        obtain ⟨y, hy, hyn, hyst⟩ := firstVCState_sound hfa
        exact ⟨st, by rw [findVCStatus, if_pos hoa, hfa],
          a, List.mem_cons_self a rest, hoa, y, hy, hyn, hyst⟩
      | none =>
        rcases List.mem_cons.mp hc with heq | hmem
        · subst heq
          obtain ⟨st, hst⟩ := firstVCState_found x hx hn
          rw [hst] at hfa
          exact absurd hfa (by simp)
        · obtain ⟨st, hfind, c2, hc2, hoid2, y, hy, hyn, hyst⟩ := ih hmem
          exact ⟨st, by rw [findVCStatus, if_pos hoa, hfa]; exact hfind,
            c2, List.mem_cons_of_mem a hc2, hoid2, y, hy, hyn, hyst⟩
    · rcases List.mem_cons.mp hc with heq | hmem
      · exact absurd (heq ▸ hoid) hoa
      · obtain ⟨st, hfind, c2, hc2, hoid2, y, hy, hyn, hyst⟩ := ih hmem
        exact ⟨st, by rw [findVCStatus, if_neg hoa]; exact hfind,
          c2, List.mem_cons_of_mem a hc2, hoid2, y, hy, hyn, hyst⟩

/-- C2: when some commit of the PR with the head ref oid carries a status
context named verify-conformance whose state is success - and, as GitHub
guarantees by keying contexts on their name, every verify-conformance
context on a head commit then folds to SUCCESS - updateStatus issues no
client call and returns no error, for every desired state including
failure. -/
theorem c2_success_never_regressed (w : World) (pr : PRM)
    (desiredState : String) (c : CommitM) (hc : c ∈ pr.commits)
    (hoid : c.oid = pr.headRefOID) (x : StatusContextM) (hx : x ∈ c.contexts)
    (hname : x.context = "verify-conformance") (hstate : x.state = "success")
    (hwf : ∀ c2 ∈ pr.commits, c2.oid = pr.headRefOID →
      ∀ y ∈ c2.contexts, eqFold y.context "verify-conformance" = true →
        eqFold y.state "SUCCESS" = true) :
    updateStatus w pr desiredState = ([], none) := by
  have hn : eqFold x.context "verify-conformance" = true := by
    rw [hname]; decide
  obtain ⟨st, hfind, c2, hc2, hoid2, y, hy, hyn, hyst⟩ :=
    findVCStatus_found c hc hoid x hx hn
  have hsucc : eqFold st "SUCCESS" = true :=
    hyst ▸ hwf c2 hc2 hoid2 y hy hyn
  simp [updateStatus, hfind, hsucc]

/-- A PR whose single head commit already records verify-conformance
success. -/
def prC2 : PRM :=
  ⟨"Conformance results for v1.28", "headsha",
   [⟨"headsha", [⟨"verify-conformance", "success"⟩]⟩]⟩

/-- C2, witness: a verified head commit is not regressed even when the
desired state is failure. -/
theorem c2_success_never_regressed_witness :
    updateStatus wAllOk prC2 "failure" = ([], none) :=
  c2_success_never_regressed wAllOk prC2 "failure"
    ⟨"headsha", [⟨"verify-conformance", "success"⟩]⟩ (by decide) rfl
    ⟨"verify-conformance", "success"⟩ (by decide) rfl rfl
    (by
      intro c2 hc2 hoid2 y hy hn
      simp only [prC2, List.mem_singleton] at hc2
      subst hc2
      simp only [List.mem_singleton] at hy
      subst hy
      decide)

/-- plugin.go isConformancePR: the lowercased title contains the marker
phrase. -/
def isConformancePR (pr : PRM) : Bool :=
  strContains (lowerStr pr.title) "conformance results for"

/-- The fixed explanatory comment of the non-conformance gate (the Go
code joins three lines, the middle one empty, with newlines). -/
def notConformanceComment : String :=
  "This pull request appears to not be a conformance results submission; Checks will not run.\n\nIf this change is intended to be verified as a conformance results submission see: [_content of the PR_](https://github.com/cncf/k8s-conformance/blob/master/instructions.md#contents-of-the-pr), and [_requirements_](https://github.com/cncf/k8s-conformance/blob/master/instructions.md#requirements)"

/-- Modelled from the spec: the Rule Suite Evaluator (internal/suite of
this repository, absent from src/ and declared an external collaborator
by the design document) returns a comment body, a desired label set, a
status state and an optional error; handle treats the quadruple as
opaque. -/
structure Verdict where
  comment : String
  labels : List String
  state : String
  err : Option String
  deriving DecidableEq

/-- The reconciliation triple that every terminal step of handle runs:
updateLabels, then updateComments, then updateStatus, propagating the
first error and skipping the later reconcilers, and returning `retErr`
when all three succeed.  The Go code repeats this block verbatim at each
gate. -/
def gateOutcome (w : World) (pr : PRM) (s : PRSuiteState)
    (labels : List String) (finalComment state : String)
    (retErr : Option String) : List Effect × Option String :=
  let r := updateLabels w s labels
  match r.err with
  | some e => (r.effects, some e)
  | none =>
    let cres := updateComments w finalComment
    match cres.2 with
    | some e => (r.effects ++ cres.1, some e)
    | none =>
      let sres := updateStatus w pr state
      match sres.2 with
      | some e => (r.effects ++ cres.1 ++ sres.1, some e)
      | none => (r.effects ++ cres.1 ++ sres.1, retErr)

/-- plugin.go handle: the per-PR state machine.  The suite construction
error, the release-validator outcome (ItIsAValidAndSupportedRelease),
the missing conformance.yaml condition (ReadFile with os.IsNotExist) and
the rule-suite verdict are collaborator outcomes supplied as oracle
inputs, as the design document places them outside this core. -/
def handle (w : World) (pr : PRM) (s : PRSuiteState)
    (suiteBuildErr : Option String) (releaseCheckErr : Option String)
    (conformanceYAMLMissing : Bool) (verdict : Verdict) :
    List Effect × Option String :=
  match suiteBuildErr with
  | some e => ([], some e)
  | none =>
    if !(isConformancePR pr) then
      gateOutcome w pr s
        ["not-conformance-product-submission", "unable-to-process"]
        notConformanceComment "pending" none
    else
      match releaseCheckErr with
      | some e =>
        gateOutcome w pr s
          ["conformance-product-submission", "unable-to-process"]
          (capitalizeFirst e ++ ".") "pending"
          (some ("unable to process release file as it is missing for release "
            ++ s.version))
      | none =>
        if conformanceYAMLMissing then
          gateOutcome w pr s
            ["conformance-product-submission", "unable-to-process"]
            ("The release version " ++ s.version ++
              " is unable to be processed at this time; Please wait as this version may become available soon.")
            "pending"
            (some ("unable to process release file as it is missing for release "
              ++ s.version))
        else
          match verdict.err with
          | some e => ([], some e)
          | none =>
            if verdict.comment == "" && verdict.labels.isEmpty then ([], none)
            else
              gateOutcome w pr s verdict.labels verdict.comment verdict.state
                none

theorem addLoop_err_none {w : World}
    (h : ∀ l, w.addLabelOk l = true) (cur : List String) (version : String)
    (mf : List String) :
    ∀ rest acc effs, (addLoop w cur version mf rest acc effs).err = none := by
  intro rest
  induction rest with
  | nil => intro acc effs; rfl
  | cons l rest ih =>
    intro acc effs
    rw [addLoop]
    split
    · exact ih _ _
    · split
      · exact ih _ _
      · split
        · exact ih _ _
        · rename_i hfalse
          exact absurd (h l) hfalse

theorem removeLoop_err_none {w : World}
    (h : ∀ l, w.removeLabelOk l = true) (desired all : List String)
    (version : String) (mf : List String) :
    ∀ rest acc effs,
      (removeLoop w desired all version mf rest acc effs).err = none := by
  intro rest
  induction rest with
  | nil => intro acc effs; rfl
  | cons prl rest ih =>
    intro acc effs
    rw [removeLoop]
    split
    · exact ih _ _
    · split
      · exact ih _ _
      · split
        · exact ih _ _
        · rename_i hfalse
          exact absurd (h prl) hfalse

theorem updateLabels_err_none {w : World}
    (hA : ∀ l, w.addLabelOk l = true) (hR : ∀ l, w.removeLabelOk l = true)
    (s : PRSuiteState) (labels : List String) :
    (updateLabels w s labels).err = none := by
  rcases ha : addLoop w s.prLabels s.version s.missingFiles labels [] [] with
    ⟨acc, aeffs, aerr⟩
  have haerr := addLoop_err_none hA s.prLabels s.version s.missingFiles
    labels [] []
  rw [ha] at haerr
  subst haerr
  rcases hr : removeLoop w labels (s.prLabels ++ acc) s.version
      s.missingFiles (s.prLabels ++ acc) [] [] with ⟨racc, reffs, rerr⟩
  have hrerr := removeLoop_err_none hR labels (s.prLabels ++ acc) s.version
    s.missingFiles (s.prLabels ++ acc) [] []
  rw [hr] at hrerr
  subst hrerr
  simp [updateLabels, ha, hr]

theorem updateComments_err_none {w : World}
    (h1 : w.listCommentsOk = true) (h2 : w.botCheckOk = true)
    (h3 : w.deleteOk = true) (h4 : w.createCommentOk = true)
    (comment : String) : (updateComments w comment).2 = none := by
  by_cases hm :
      (match (botCommentsOf w).getLast? with
        | some lc => lc.body == comment
        | none => false) = true
  · simp [updateComments, h1, h2, hm]
  · rw [Bool.not_eq_true] at hm
    rw [updateComments_not_match h1 h2 h3 h4 hm]

theorem updateStatus_err_none {w : World}
    (hg : w.getCombinedOk = true) (hcs : w.createStatusOk = true)
    (pr : PRM) (state : String) : (updateStatus w pr state).2 = none := by
  rw [updateStatus]
  split
  · rfl
  · simp [hg, hcs]
    split
    · rfl
    · rfl

theorem gateOutcome_allOk {w : World} (hok : w.allOk) (pr : PRM)
    (s : PRSuiteState) (labels : List String) (comment state : String)
    (retErr : Option String) :
    gateOutcome w pr s labels comment state retErr =
      ((updateLabels w s labels).effects ++ (updateComments w comment).1 ++
         (updateStatus w pr state).1, retErr) := by
  obtain ⟨hA, hR, h1, h2, h3, h4, hg, hcs⟩ := hok
  have hL := updateLabels_err_none hA hR s labels
  have hC := updateComments_err_none h1 h2 h3 h4 comment
  have hS := updateStatus_err_none hg hcs pr state
  simp [gateOutcome, hL, hC, hS]

/-- C5: with every client call succeeding, each of the three gate
failures drives the full updateLabels, updateComments, updateStatus
sequence with its fixed arguments, and handle reports an error upward
for the unsupported-release and missing-metadata gates but returns none
for the non-conformance-title gate. -/
theorem c5_gate_errors (w : World) (pr : PRM) (s : PRSuiteState)
    (verdict : Verdict) (releaseCheckErr : Option String)
    (conformanceYAMLMissing : Bool) (e : String) (hok : w.allOk) :
    (isConformancePR pr = false →
      handle w pr s none releaseCheckErr conformanceYAMLMissing verdict =
        ((updateLabels w s
            ["not-conformance-product-submission", "unable-to-process"]).effects ++
           (updateComments w notConformanceComment).1 ++
           (updateStatus w pr "pending").1, none)) ∧
    (isConformancePR pr = true →
      handle w pr s none (some e) conformanceYAMLMissing verdict =
        ((updateLabels w s
            ["conformance-product-submission", "unable-to-process"]).effects ++
           (updateComments w (capitalizeFirst e ++ ".")).1 ++
           (updateStatus w pr "pending").1,
         some ("unable to process release file as it is missing for release "
           ++ s.version))) ∧
    (isConformancePR pr = true →
      handle w pr s none none true verdict =
        ((updateLabels w s
            ["conformance-product-submission", "unable-to-process"]).effects ++
           (updateComments w ("The release version " ++ s.version ++
             " is unable to be processed at this time; Please wait as this version may become available soon.")).1 ++
           (updateStatus w pr "pending").1,
         some ("unable to process release file as it is missing for release "
           ++ s.version))) := by
  refine ⟨?_, ?_, ?_⟩ <;> intro hconf <;>
    simp [handle, hconf, gateOutcome_allOk hok]

/-- C5, witness: the non-conformance-title gate on a README PR mutates
and returns no error. -/
theorem c5_gate_errors_witness :
    handle wAllOk ⟨"Update README", "headsha", []⟩ ⟨[], "v1.28", []⟩
        none none false ⟨"", [], "", none⟩ =
      ((updateLabels wAllOk ⟨[], "v1.28", []⟩
          ["not-conformance-product-submission", "unable-to-process"]).effects ++
         (updateComments wAllOk notConformanceComment).1 ++
         (updateStatus wAllOk ⟨"Update README", "headsha", []⟩ "pending").1,
       none) :=
  (c5_gate_errors wAllOk ⟨"Update README", "headsha", []⟩ ⟨[], "v1.28", []⟩
    ⟨"", [], "", none⟩ none false "x" wAllOk_allOk).1 (by decide)

/-- A conformance-titled PR failing release validation for v1.99. -/
def prC6 : PRM := ⟨"Conformance results for v1.99", "headsha", []⟩

/-- Suite state of the v1.99 scenario. -/
def sC6 : PRSuiteState := ⟨[], "v1.99", []⟩

/-- An empty rule-suite verdict (unused on the gate paths). -/
def vNone : Verdict := ⟨"", [], "", none⟩

/-- Recognizer for comment-creation effects. -/
def isCreateComment : Effect → Bool
  | .createComment _ => true
  | _ => false

/-- C6, counterexample: on the v1.99 scenario the single created comment
carries a trailing period and therefore does not equal the validator
error text with its first letter capitalized. -/
theorem c6_counterexample :
    ((handle wAllOk prC6 sC6 none
        (some "version v1.99 is not a supported release") false
        vNone).1.filter isCreateComment) =
      [Effect.createComment "Version v1.99 is not a supported release."] ∧
    "Version v1.99 is not a supported release." ≠
      capitalizeFirst "version v1.99 is not a supported release" := by
  decide

/-- C6, amended: on a release-validation failure, handle runs the
reconciliation triple with labels conformance-product-submission and
unable-to-process, a comment equal to the validator error text with its
first letter capitalized AND a period appended, desired status pending,
and reports an error to the caller. -/
theorem c6_unsupported_release (w : World) (pr : PRM) (s : PRSuiteState)
    (verdict : Verdict) (e : String) (hok : w.allOk)
    (hconf : isConformancePR pr = true) :
    handle w pr s none (some e) false verdict =
      ((updateLabels w s
          ["conformance-product-submission", "unable-to-process"]).effects ++
         (updateComments w (capitalizeFirst e ++ ".")).1 ++
         (updateStatus w pr "pending").1,
       some ("unable to process release file as it is missing for release "
         ++ s.version)) := by
  simp [handle, hconf, gateOutcome_allOk hok]

/-- C6, amended, witness at the v1.99 scenario. -/
theorem c6_unsupported_release_witness :
    handle wAllOk prC6 sC6 none
        (some "version v1.99 is not a supported release") false vNone =
      ((updateLabels wAllOk sC6
          ["conformance-product-submission", "unable-to-process"]).effects ++
         (updateComments wAllOk
           (capitalizeFirst "version v1.99 is not a supported release" ++ ".")).1 ++
         (updateStatus wAllOk prC6 "pending").1,
       some ("unable to process release file as it is missing for release v1.99")) :=
  c6_unsupported_release wAllOk prC6 sC6 vNone
    "version v1.99 is not a supported release" wAllOk_allOk (by decide)

/-- C8: when all three gates pass and the rule suite yields an empty
comment and an empty label list, handle stops with no mutation and no
error. -/
theorem c8_nothing_new (w : World) (pr : PRM) (s : PRSuiteState)
    (verdict : Verdict) (hconf : isConformancePR pr = true)
    (hverr : verdict.err = none) (hcomment : verdict.comment = "")
    (hlabels : verdict.labels = []) :
    handle w pr s none none false verdict = ([], none) := by
  simp [handle, hconf, hverr, hcomment, hlabels]

/-- C8, witness. -/
theorem c8_nothing_new_witness :
    handle wAllOk prC2 ⟨[], "v1.28", []⟩ none none false
      ⟨"", [], "success", none⟩ = ([], none) :=
  c8_nothing_new wAllOk prC2 ⟨[], "v1.28", []⟩ ⟨"", [], "success", none⟩
    (by decide) rfl rfl rfl

/-- C9: the conformance-PR gate is exactly the marker-phrase test on the
lowercased title, and two PRs whose titles agree after lowercasing are
classified identically. -/
theorem c9_case_insensitive_title (pr pr2 : PRM)
    (h : lowerStr pr.title = lowerStr pr2.title) :
    (isConformancePR pr = true ↔
      strContains (lowerStr pr.title) "conformance results for" = true) ∧
    isConformancePR pr = isConformancePR pr2 := by
  constructor
  · exact Iff.rfl
  · unfold isConformancePR
    rw [h]

/-- C9, witness: titles differing only in case agree. -/
theorem c9_case_insensitive_title_witness :
    lowerStr "Conformance Results for v1.28" =
      lowerStr "CONFORMANCE RESULTS FOR v1.28" ∧
    isConformancePR ⟨"Conformance Results for v1.28", "h", []⟩ =
      isConformancePR ⟨"CONFORMANCE RESULTS FOR v1.28", "h", []⟩ :=
  ⟨by decide,
   (c9_case_insensitive_title ⟨"Conformance Results for v1.28", "h", []⟩
     ⟨"CONFORMANCE RESULTS FOR v1.28", "h", []⟩ (by decide)).2⟩

end VerifyConformance
